import Mathlib

/-!
Verification of the tablet-apps installer (src/tablet-mods/install-tablet-apps.py).

The program is embedded shallowly:
* `AppEntry`, `Catalog` mirror the JSON catalog shape; the two boolean flags
  are `Option Bool` because the Python code reads them with `dict.get`
  (a missing key yields a falsy `None`).
* The filesystem is explicit state (`FSState`).  The catalog file is modelled
  at the granularity the program observes it: absent, present-and-parsing to
  a `Catalog`, or present-but-corrupt (any read or parse exception).  JSON
  serialisation is abstracted to this parse-result round trip.
* Tablet-config and shortcut writes are recorded as prepend-logs of
  `(path, content)` pairs; the observable content of a path is the most
  recent write (`lookupFile`), which matches overwrite-in-place semantics.
* A write-failure oracle `wf : String → Bool` models the exceptions that
  `install_app` catches around `configure_app_for_tablet`: a write to path
  `p` raises exactly when `wf p = true`.
-/

namespace TabletApps

/-- One application record of the catalog.  The flags are optional because
the source reads them with `get` and treats a missing key as false. -/
structure AppEntry where
  name : String
  package : String
  category : String
  tablet_optimized : Option Bool
  stylus_support : Option Bool
deriving DecidableEq, Repr

/-- The catalog: an ordered mapping from category name to its app entries,
as in the JSON file (Python dicts preserve insertion order). -/
abbrev Catalog : Type := List (String × List AppEntry)

/-- The per-app tablet configuration document written by
`configure_app_for_tablet` (lines 212-218 of the source). -/
structure TabletConfig where
  tablet_mode : Bool
  force_tablet_ui : Bool
  stylus_support : Bool
  multi_window : Bool
  resizable : Bool
deriving DecidableEq, Repr

/-- The in-memory installation record built by `install_app`
(lines 186-192 of the source). -/
structure InstallRecord where
  package : String
  name : String
  installed : Bool
  tablet_configured : Bool
  stylus_configured : Bool
deriving DecidableEq, Repr

/-- Content of the catalog file as the program observes it: it either parses
to a `Catalog` or raises on `json.load` (the `corrupt` case keeps the raw
bytes so that we can state that they are left unchanged). -/
inductive CatalogFileContent where
  | valid (c : Catalog)
  | corrupt (raw : String)
deriving DecidableEq

/-- Explicit filesystem state: the catalog file at its fixed path, plus
write-logs for tablet-config files and shortcut files. -/
structure FSState where
  catalogFile : Option CatalogFileContent
  tabletConfigs : List (String × TabletConfig)
  shortcuts : List (String × String)
deriving DecidableEq

/-- The empty filesystem: no catalog file, nothing written yet. -/
def emptyFS : FSState := ⟨none, [], []⟩

/-- Observable content at a path in a write-log: the most recent write wins,
matching overwrite-in-place file semantics. -/
def lookupLog {β : Type} (log : List (String × β)) (p : String) : Option β :=
  (log.find? (fun q => q.1 == p)).map Prod.snd

/-- The built-in default catalog, `default_config` of `load_apps_config`
(lines 26-161 of the source), transcribed verbatim. -/
def default_config : Catalog :=
  [("productivity",
    [⟨"Google Docs", "com.google.android.apps.docs.editors.docs",
      "productivity", some true, some true⟩,
     ⟨"Google Sheets", "com.google.android.apps.docs.editors.sheets",
      "productivity", some true, some true⟩,
     ⟨"Google Slides", "com.google.android.apps.docs.editors.slides",
      "productivity", some true, some true⟩,
     ⟨"Microsoft Word", "com.microsoft.office.word",
      "productivity", some true, some true⟩,
     ⟨"Microsoft Excel", "com.microsoft.office.excel",
      "productivity", some true, some true⟩,
     ⟨"Microsoft PowerPoint", "com.microsoft.office.powerpoint",
      "productivity", some true, some true⟩]),
   ("creative",
    [⟨"Adobe Photoshop Express", "com.adobe.psmobile",
      "creative", some true, some true⟩,
     ⟨"Autodesk SketchBook", "com.adsk.sketchbook",
      "creative", some true, some true⟩,
     ⟨"Canva", "com.canva.editor",
      "creative", some true, some false⟩,
     ⟨"Concepts", "com.tophatch.concepts",
      "creative", some true, some true⟩]),
   ("entertainment",
    [⟨"Netflix", "com.netflix.mediaclient",
      "entertainment", some true, some false⟩,
     ⟨"Spotify", "com.spotify.music",
      "entertainment", some true, some false⟩,
     ⟨"YouTube", "com.google.android.youtube",
      "entertainment", some true, some false⟩,
     ⟨"VLC Media Player", "org.videolan.vlc",
      "entertainment", some true, some false⟩]),
   ("utilities",
    [⟨"Google Keep", "com.google.android.keep",
      "utilities", some true, some true⟩,
     ⟨"Google Calendar", "com.google.android.calendar",
      "utilities", some true, some false⟩,
     ⟨"Google Photos", "com.google.android.apps.photos",
      "utilities", some true, some false⟩,
     ⟨"File Manager", "com.google.android.apps.nbu.files",
      "utilities", some true, some false⟩])]

/-- `load_apps_config` (lines 163-174 of the source): if the catalog file
exists, parse it (falling back to the defaults on any exception, leaving the
file alone); if it does not exist, write the defaults to it and return them. -/
def load_apps_config (fs : FSState) : Catalog × FSState :=
  match fs.catalogFile with
  | some (.valid c) => (c, fs)
  | some (.corrupt _) => (default_config, fs)
  | none => (default_config, { fs with catalogFile := some (.valid default_config) })

/-- C1: loading with no catalog file on disk persists the built-in default
catalog to the fixed path and returns that same default structure. -/
theorem load_creates_default_when_absent (fs : FSState)
    (h : fs.catalogFile = none) :
    load_apps_config fs =
      (default_config, { fs with catalogFile := some (.valid default_config) }) := by
  unfold load_apps_config
  rw [h]

/-- Witness for C1 at the empty filesystem. -/
theorem load_creates_default_when_absent_witness :
    emptyFS.catalogFile = none ∧
      load_apps_config emptyFS =
        (default_config, { emptyFS with catalogFile := some (.valid default_config) }) :=
  ⟨rfl, load_creates_default_when_absent emptyFS rfl⟩

/-- C2: loading a catalog file that fails to parse returns the built-in
default catalog and leaves the whole filesystem state — in particular the
corrupt file content — unchanged. -/
theorem load_corrupt_returns_default (fs : FSState) (raw : String)
    (h : fs.catalogFile = some (.corrupt raw)) :
    load_apps_config fs = (default_config, fs) := by
  unfold load_apps_config
  rw [h]

/-- Witness for C2 at a concrete corrupt file. -/
theorem load_corrupt_returns_default_witness :
    (FSState.mk (some (.corrupt "not json")) [] []).catalogFile
        = some (.corrupt "not json") ∧
      load_apps_config (FSState.mk (some (.corrupt "not json")) [] [])
        = (default_config, FSState.mk (some (.corrupt "not json")) [] []) :=
  ⟨rfl, load_corrupt_returns_default _ "not json" rfl⟩

/-- Path of the per-app tablet configuration file written by
`configure_app_for_tablet`:
`/data/data/{package}/tablet-config/tablet.json` (lines 209 and 220). -/
def config_path (e : AppEntry) : String :=
  "/data/data/" ++ e.package ++ "/tablet-config/tablet.json"

/-- The configuration document of `configure_app_for_tablet`
(lines 212-218): missing flags are read with `get(..., False)`. -/
def tablet_config (e : AppEntry) : TabletConfig :=
  ⟨true, e.tablet_optimized.getD false, e.stylus_support.getD false, true, true⟩

/-- The in-memory record of `install_app` (lines 186-192). -/
def install_record (e : AppEntry) : InstallRecord :=
  ⟨e.package, e.name, true,
   e.tablet_optimized.getD false, e.stylus_support.getD false⟩

/-- `configure_app_for_tablet` (lines 204-224): writes `tablet_config e` to
`config_path e` (directory creation is a no-op in the model); `none` models
the write raising, as decided by the oracle `wf`. -/
def configure_app_for_tablet (wf : String → Bool) (e : AppEntry)
    (fs : FSState) : Option FSState :=
  if wf (config_path e) then none
  else some { fs with tabletConfigs := (config_path e, tablet_config e) :: fs.tabletConfigs }

/-- `install_app` (lines 176-202): builds the in-memory record, configures
the app for tablet, returns true; any exception is caught, logged and turned
into a false return with no write recorded. -/
def install_app (wf : String → Bool) (e : AppEntry) (fs : FSState) :
    Bool × FSState :=
  match configure_app_for_tablet wf e fs with
  | some fs2 => (true, fs2)
  | none => (false, fs)

/-- The per-category loop of `install_category` / `install_all_apps`
(lines 239-241 and 256-258), as a tail recursion over the entry list:
install every entry, counting successes; a failure never stops the loop. -/
def install_loop (wf : String → Bool) :
    List AppEntry → Nat → FSState → Nat × FSState
  | [], n, fs => (n, fs)
  | e :: rest, n, fs =>
      let r := install_app wf e fs
      install_loop wf rest (if r.1 then n + 1 else n) r.2

/-- The loop of lines 239-241, started with `success_count = 0`. -/
def install_apps_list (wf : String → Bool) (apps : List AppEntry)
    (fs : FSState) : Nat × FSState :=
  install_loop wf apps 0 fs

/-- `install_category` (lines 226-244): load the catalog, fail on an unknown
category, otherwise install every app and report whether all succeeded. -/
def install_category (wf : String → Bool) (category : String)
    (fs : FSState) : Bool × FSState :=
  let p := load_apps_config fs
  match p.1.lookup category with
  | none => (false, p.2)
  | some apps =>
      let r := install_apps_list wf apps p.2
      (r.1 == apps.length, r.2)

/-- `install_all_apps` (lines 246-261): install every category, reporting
whether every app succeeded. -/
def install_all_apps (wf : String → Bool) (fs : FSState) : Bool × FSState :=
  let p := load_apps_config fs
  let r := p.1.foldl
    (fun acc pr =>
      let s := install_apps_list wf pr.2 acc.2.2
      (acc.1 + pr.2.length, (acc.2.1 + s.1, s.2)))
    (0, (0, p.2))
  (r.2.1 == r.1, r.2.2)

/-- The tablet-config writes a list of apps produces, in order: one
`(config_path, tablet_config)` pair for every app whose write succeeds. -/
def config_writes_of (wf : String → Bool) (apps : List AppEntry) :
    List (String × TabletConfig) :=
  (apps.filter (fun e => !wf (config_path e))).map
    (fun e => (config_path e, tablet_config e))

/-- Characterisation of `install_app`: it succeeds exactly when the config
write does not raise, in which case the only state change is the new
tablet-config file; on failure the state is untouched. -/
theorem install_app_spec (wf : String → Bool) (e : AppEntry) (fs : FSState) :
    install_app wf e fs =
      if wf (config_path e) then (false, fs)
      else (true, { fs with
        tabletConfigs := (config_path e, tablet_config e) :: fs.tabletConfigs }) := by
  unfold install_app configure_app_for_tablet
  by_cases hw : wf (config_path e) <;> simp [hw]

/-- Unfolding lemma: the install loop counts exactly the apps whose config
write succeeds and records exactly their writes, newest first, on top of the
starting state — so one failure never discards later (or earlier) writes. -/
theorem install_loop_eq (wf : String → Bool) (apps : List AppEntry)
    (n : Nat) (fs : FSState) :
    install_loop wf apps n fs =
      (n + (apps.filter (fun e => !wf (config_path e))).length,
       { fs with tabletConfigs := (config_writes_of wf apps).reverse ++ fs.tabletConfigs }) := by
  induction apps generalizing n fs with
  | nil => simp [install_loop, config_writes_of]
  | cons a as ih =>
      rw [install_loop, install_app_spec]
      by_cases hw : wf (config_path a)
      · simp only [hw, if_true]
        rw [ih]
        simp [config_writes_of, hw, List.filter_cons]
      · simp only [hw, if_false]
        rw [ih]
        simp [config_writes_of, hw, List.filter_cons, List.append_assoc]
        omega

/-- C3: `install_app` always writes the tablet-config file as its one side
effect and returns true, unless that write raises, in which case it returns
false and the state is unchanged; and the batch loop of
`install_category` / `install_all_apps` keeps going after a per-app failure:
it still counts and records every other succeeding app. -/
theorem install_app_failure_isolated (wf : String → Bool) (e : AppEntry)
    (fs : FSState) :
    ((install_app wf e fs).1 = !wf (config_path e)) ∧
    (install_app wf e fs =
        if wf (config_path e) then (false, fs)
        else (true, { fs with
          tabletConfigs := (config_path e, tablet_config e) :: fs.tabletConfigs })) ∧
    (∀ (apps : List AppEntry) (fs2 : FSState),
        install_apps_list wf apps fs2 =
          ((apps.filter (fun a => !wf (config_path a))).length,
           { fs2 with
             tabletConfigs := (config_writes_of wf apps).reverse ++ fs2.tabletConfigs })) := by
  refine ⟨?_, install_app_spec wf e fs, ?_⟩
  · rw [install_app_spec]
    by_cases hw : wf (config_path e) <;> simp [hw]
  · intro apps fs2
    unfold install_apps_list
    rw [install_loop_eq]
    simp

/-- Counterexample to C4 as stated: on an empty filesystem,
`install_category` with an unknown category does return false, but it is not
write-free — loading the catalog persists the default catalog file. -/
theorem install_category_unknown_does_write :
    (install_category (fun _ => false) "no-such-category" emptyFS).1 = false ∧
    (install_category (fun _ => false) "no-such-category" emptyFS).2 ≠ emptyFS := by
  constructor
  · rfl
  · intro h
    have hc : (install_category (fun _ => false) "no-such-category" emptyFS).2.catalogFile
        = some (.valid default_config) := rfl
    rw [h] at hc
    exact Option.noConfusion hc

/-- C4 (amended): `install_category` on a category absent from the loaded
catalog returns false and writes no tablet-config or shortcut file; the only
possible write is the catalog load persisting the default catalog when the
catalog file was absent. -/
theorem install_category_unknown_amended (wf : String → Bool) (cat : String)
    (fs : FSState)
    (h : ((load_apps_config fs).1).lookup cat = none) :
    (install_category wf cat fs).1 = false ∧
    (install_category wf cat fs).2.tabletConfigs = fs.tabletConfigs ∧
    (install_category wf cat fs).2.shortcuts = fs.shortcuts ∧
    ((install_category wf cat fs).2.catalogFile = fs.catalogFile ∨
      (fs.catalogFile = none ∧
       (install_category wf cat fs).2.catalogFile = some (.valid default_config))) := by
  rcases fs with ⟨cf, tc, sc⟩
  rcases cf with _ | cv
  · simp only [load_apps_config] at h ⊢
    simp [install_category, load_apps_config, h]
  · rcases cv with c | raw
    · simp only [load_apps_config] at h ⊢
      simp [install_category, load_apps_config, h]
    · simp only [load_apps_config] at h ⊢
      simp [install_category, load_apps_config, h]

/-- Witness for C4 (amended) at the empty filesystem. -/
theorem install_category_unknown_amended_witness :
    ((load_apps_config emptyFS).1).lookup "no-such-category" = none ∧
    ((install_category (fun _ => false) "no-such-category" emptyFS).1 = false ∧
     (install_category (fun _ => false) "no-such-category" emptyFS).2.tabletConfigs
        = emptyFS.tabletConfigs ∧
     (install_category (fun _ => false) "no-such-category" emptyFS).2.shortcuts
        = emptyFS.shortcuts ∧
     ((install_category (fun _ => false) "no-such-category" emptyFS).2.catalogFile
          = emptyFS.catalogFile ∨
       (emptyFS.catalogFile = none ∧
        (install_category (fun _ => false) "no-such-category" emptyFS).2.catalogFile
          = some (.valid default_config)))) :=
  ⟨rfl, install_category_unknown_amended (fun _ => false) "no-such-category" emptyFS rfl⟩

/-- C6: the tablet configuration derived for an entry is exactly
`{tablet_mode: true, force_tablet_ui: tablet_optimized, stylus_support:
stylus_support, multi_window: true, resizable: true}`, it goes to the path
keyed by the package identifier, and the write is a pure function of the
entry applied to the state. -/
theorem configure_for_tablet_pure (e : AppEntry) (t s : Bool)
    (wf : String → Bool) (fs : FSState)
    (ht : e.tablet_optimized = some t) (hs : e.stylus_support = some s) :
    tablet_config e = ⟨true, t, s, true, true⟩ ∧
    config_path e = "/data/data/" ++ e.package ++ "/tablet-config/tablet.json" ∧
    (wf (config_path e) = false →
      configure_app_for_tablet wf e fs =
        some { fs with
          tabletConfigs := (config_path e, tablet_config e) :: fs.tabletConfigs }) := by
  refine ⟨?_, rfl, ?_⟩
  · simp [tablet_config, ht, hs]
  · intro hwf
    simp [configure_app_for_tablet, hwf]

/-- Witness for C6 at a concrete entry with both flags present. -/
theorem configure_for_tablet_pure_witness :
    tablet_config (AppEntry.mk "Demo" "com.example.demo" "productivity"
        (some true) (some false)) = ⟨true, true, false, true, true⟩ ∧
    config_path (AppEntry.mk "Demo" "com.example.demo" "productivity"
        (some true) (some false)) =
      "/data/data/" ++ "com.example.demo" ++ "/tablet-config/tablet.json" ∧
    configure_app_for_tablet (fun _ => false)
        (AppEntry.mk "Demo" "com.example.demo" "productivity"
          (some true) (some false)) emptyFS =
      some
        ⟨none,
         [(config_path (AppEntry.mk "Demo" "com.example.demo" "productivity"
             (some true) (some false)),
           tablet_config (AppEntry.mk "Demo" "com.example.demo" "productivity"
             (some true) (some false)))],
         []⟩ :=
  ⟨(configure_for_tablet_pure
      (AppEntry.mk "Demo" "com.example.demo" "productivity"
        (some true) (some false)) true false (fun _ => false) emptyFS rfl rfl).1,
   (configure_for_tablet_pure
      (AppEntry.mk "Demo" "com.example.demo" "productivity"
        (some true) (some false)) true false (fun _ => false) emptyFS rfl rfl).2.1,
   (configure_for_tablet_pure
      (AppEntry.mk "Demo" "com.example.demo" "productivity"
        (some true) (some false)) true false (fun _ => false) emptyFS rfl rfl).2.2 rfl⟩

/-- C7: installing the `"productivity"` category on a fresh filesystem (so
the default catalog is in effect) returns true and writes exactly the six
tablet-config files of the six default productivity apps (newest first). -/
theorem install_productivity_default :
    install_category (fun _ => false) "productivity" emptyFS =
      (true,
       ⟨some (.valid default_config),
        [("/data/data/com.microsoft.office.powerpoint/tablet-config/tablet.json",
          ⟨true, true, true, true, true⟩),
         ("/data/data/com.microsoft.office.excel/tablet-config/tablet.json",
          ⟨true, true, true, true, true⟩),
         ("/data/data/com.microsoft.office.word/tablet-config/tablet.json",
          ⟨true, true, true, true, true⟩),
         ("/data/data/com.google.android.apps.docs.editors.slides/tablet-config/tablet.json",
          ⟨true, true, true, true, true⟩),
         ("/data/data/com.google.android.apps.docs.editors.sheets/tablet-config/tablet.json",
          ⟨true, true, true, true, true⟩),
         ("/data/data/com.google.android.apps.docs.editors.docs/tablet-config/tablet.json",
          ⟨true, true, true, true, true⟩)],
        []⟩) := by
  rfl

/-- Helper for `py_title`: the state records whether the previous character
was cased, as in the Python `str.title` algorithm (ASCII letters). -/
def py_title_aux : Bool → List Char → List Char
  | _, [] => []
  | prev, c :: cs =>
      (if c.isAlpha then (if prev then c.toLower else c.toUpper) else c)
        :: py_title_aux c.isAlpha cs

/-- Python `str.title()` for the ASCII strings this program uses: the first
letter of every alphabetic run is uppercased, the rest lowercased. -/
def py_title (s : String) : String := ⟨py_title_aux false s.data⟩

/-- The shortcuts output directory (line 283). -/
def shortcuts_dir : String := "/usr/share/applications/tablet-apps"

/-- Path of the shortcut file of one app (line 314):
`{shortcuts_dir}/{package}.desktop`. -/
def shortcut_path (e : AppEntry) : String :=
  shortcuts_dir ++ "/" ++ e.package ++ ".desktop"

/-- The marker line appended when `tablet_optimized` is truthy (line 309). -/
def tablet_marker : String := "X-Tablet-Optimized=true"

/-- The marker line appended when `stylus_support` is truthy (line 312). -/
def stylus_marker : String := "X-Stylus-Support=true"

/-- The fixed lines of the shortcut template of `create_app_shortcut`
(lines 297-306): every line of the Python f-string, in order. -/
def shortcut_base_lines (e : AppEntry) : List String :=
  ["[Desktop Entry]",
   "Name=" ++ e.name,
   "Comment=Tablet-optimized " ++ e.name,
   "Exec=am start -n " ++ e.package ++ "/.MainActivity",
   "Icon=" ++ e.package,
   "Type=Application",
   "Categories=TabletApps;" ++ py_title e.category ++ ";",
   "StartupNotify=true",
   "MimeType=application/x-tablet-app;"]

/-- All lines of the generated shortcut descriptor: the template lines, then
the two optional marker lines (lines 308-312), each keyed to its flag read
with `get` (missing key is falsy). -/
def shortcut_lines (e : AppEntry) : List String :=
  shortcut_base_lines e
    ++ (if e.tablet_optimized.getD false then [tablet_marker] else [])
    ++ (if e.stylus_support.getD false then [stylus_marker] else [])

/-- The shortcut file content: in the source every line of the template and
every appended marker ends in a newline, so the written string is exactly the
newline-terminated join of `shortcut_lines`. -/
def shortcut_content (e : AppEntry) : String :=
  String.join ((shortcut_lines e).map (fun l => l ++ "\n"))

/-- Two strings whose first characters differ are different. -/
theorem head_ne {a b : String} {ca cb : Char}
    (ha : a.data.head? = some ca) (hb : b.data.head? = some cb)
    (hne : ca ≠ cb) : a ≠ b := by
  intro h
  rw [h, hb] at ha
  exact hne (Option.some.inj ha).symm

/-- No template line is the tablet marker line: every template line starts
with a character other than `X`. -/
theorem tablet_marker_not_mem_base (e : AppEntry) :
    tablet_marker ∉ shortcut_base_lines e := by
  intro hmem
  simp only [shortcut_base_lines, List.mem_cons, List.not_mem_nil,
    or_false] at hmem
  rcases hmem with h | h | h | h | h | h | h | h | h <;>
    exact absurd h (head_ne rfl rfl (by decide))

/-- No template line is the stylus marker line. -/
theorem stylus_marker_not_mem_base (e : AppEntry) :
    stylus_marker ∉ shortcut_base_lines e := by
  intro hmem
  simp only [shortcut_base_lines, List.mem_cons, List.not_mem_nil,
    or_false] at hmem
  rcases hmem with h | h | h | h | h | h | h | h | h <;>
    exact absurd h (head_ne rfl rfl (by decide))

/-- The two marker lines differ. -/
theorem markers_ne : tablet_marker ≠ stylus_marker := by decide

/-- The tablet marker line occurs among the generated lines exactly when the
`tablet_optimized` flag reads true. -/
theorem tablet_marker_mem_iff (e : AppEntry) :
    tablet_marker ∈ shortcut_lines e ↔ e.tablet_optimized.getD false = true := by
  unfold shortcut_lines
  rcases ht : e.tablet_optimized.getD false <;>
    rcases hs : e.stylus_support.getD false <;>
      simp [tablet_marker_not_mem_base e, markers_ne]

/-- The stylus marker line occurs among the generated lines exactly when the
`stylus_support` flag reads true. -/
theorem stylus_marker_mem_iff (e : AppEntry) :
    stylus_marker ∈ shortcut_lines e ↔ e.stylus_support.getD false = true := by
  unfold shortcut_lines
  rcases ht : e.tablet_optimized.getD false <;>
    rcases hs : e.stylus_support.getD false <;>
      simp [stylus_marker_not_mem_base e, markers_ne.symm]

/-- C5: each marker line appears in the shortcut descriptor exactly when the
corresponding flag is true; in particular an entry with
`tablet_optimized=true, stylus_support=false` gets the tablet marker line
and not the stylus marker line. -/
theorem shortcut_marker_lines (e : AppEntry) :
    (tablet_marker ∈ shortcut_lines e ↔ e.tablet_optimized.getD false = true) ∧
    (stylus_marker ∈ shortcut_lines e ↔ e.stylus_support.getD false = true) ∧
    (e.tablet_optimized = some true → e.stylus_support = some false →
      tablet_marker ∈ shortcut_lines e ∧ stylus_marker ∉ shortcut_lines e) := by
  refine ⟨tablet_marker_mem_iff e, stylus_marker_mem_iff e, ?_⟩
  intro ht hs
  constructor
  · rw [tablet_marker_mem_iff e, ht]
    rfl
  · rw [stylus_marker_mem_iff e, hs]
    simp

/-- Witness for C5 at a concrete tablet-only entry. -/
theorem shortcut_marker_lines_witness :
    tablet_marker ∈ shortcut_lines
        (AppEntry.mk "Demo" "com.example.demo" "productivity"
          (some true) (some false)) ∧
    stylus_marker ∉ shortcut_lines
        (AppEntry.mk "Demo" "com.example.demo" "productivity"
          (some true) (some false)) :=
  (shortcut_marker_lines
    (AppEntry.mk "Demo" "com.example.demo" "productivity"
      (some true) (some false))).2.2 rfl rfl

/-- C10: a missing `tablet_optimized` or `stylus_support` key is read as
false everywhere: in the install record, in the tablet-config document, and
in the shortcut descriptor (the marker line is omitted). -/
theorem missing_flags_read_false (e : AppEntry) :
    (e.tablet_optimized = none →
      (install_record e).tablet_configured = false ∧
      (tablet_config e).force_tablet_ui = false ∧
      tablet_marker ∉ shortcut_lines e) ∧
    (e.stylus_support = none →
      (install_record e).stylus_configured = false ∧
      (tablet_config e).stylus_support = false ∧
      stylus_marker ∉ shortcut_lines e) := by
  constructor
  · intro ht
    refine ⟨?_, ?_, ?_⟩
    · simp [install_record, ht]
    · simp [tablet_config, ht]
    · rw [tablet_marker_mem_iff e, ht]
      simp
  · intro hs
    refine ⟨?_, ?_, ?_⟩
    · simp [install_record, hs]
    · simp [tablet_config, hs]
    · rw [stylus_marker_mem_iff e, hs]
      simp

/-- Witness for C10 at a concrete entry with both keys absent. -/
theorem missing_flags_read_false_witness :
    ((install_record (AppEntry.mk "Bare" "com.example.bare" "utilities"
        none none)).tablet_configured = false ∧
      (tablet_config (AppEntry.mk "Bare" "com.example.bare" "utilities"
        none none)).force_tablet_ui = false ∧
      tablet_marker ∉ shortcut_lines (AppEntry.mk "Bare" "com.example.bare"
        "utilities" none none)) ∧
    ((install_record (AppEntry.mk "Bare" "com.example.bare" "utilities"
        none none)).stylus_configured = false ∧
      (tablet_config (AppEntry.mk "Bare" "com.example.bare" "utilities"
        none none)).stylus_support = false ∧
      stylus_marker ∉ shortcut_lines (AppEntry.mk "Bare" "com.example.bare"
        "utilities" none none)) :=
  ⟨(missing_flags_read_false
      (AppEntry.mk "Bare" "com.example.bare" "utilities" none none)).1 rfl,
   (missing_flags_read_false
      (AppEntry.mk "Bare" "com.example.bare" "utilities" none none)).2 rfl⟩

/-- The action `main` routes to (lines 339-352). -/
inductive MainAction where
  | usage
  | listApps
  | installAllCmd
  | installCat (category : String)
  | shortcutsOnly
  | unknown (cmd : String)
deriving DecidableEq, Repr

/-- The command dispatcher of `main` (lines 321-352): the arguments after
the program name are mapped to the exit status and the routed action.
Exit status 0 models the script returning from `main` normally; `usage` and
`unknown` print their text and call `sys.exit(1)`. -/
def main_dispatch : List String → Nat × MainAction
  | [] => (1, .usage)
  | cmd :: rest =>
      if cmd = "list" then (0, .listApps)
      else if cmd = "install-all" then (0, .installAllCmd)
      else
        match rest with
        | c :: _ =>
            if cmd = "install" then (0, .installCat c)
            else if cmd = "shortcuts" then (0, .shortcutsOnly)
            else (1, .unknown cmd)
        | [] =>
            if cmd = "shortcuts" then (0, .shortcutsOnly)
            else (1, .unknown cmd)

/-- Counterexample to C8 as stated: running the program with `list` and zero
further arguments routes to the catalog listing and exits with status 0 —
it does not print usage text and does not exit non-zero. -/
theorem main_list_exits_zero :
    (main_dispatch ["list"]).1 = 0 ∧
    (main_dispatch ["list"]).2 = MainAction.listApps ∧
    (main_dispatch ["list"]).2 ≠ MainAction.usage := by
  refine ⟨rfl, rfl, ?_⟩
  decide

/-- C8 (amended): the dispatcher exits with status 1 exactly on a missing or
unrecognized command and 0 otherwise; `list` alone routes to the catalog
listing with status 0; an unrecognized first argument exits with status 1. -/
theorem dispatcher_exit_codes (args : List String) :
    ((main_dispatch args).1 = 0 ∨ (main_dispatch args).1 = 1) ∧
    ((main_dispatch args).1 = 1 ↔
      (main_dispatch args).2 = MainAction.usage ∨
      ∃ c, (main_dispatch args).2 = MainAction.unknown c) ∧
    main_dispatch ["list"] = (0, MainAction.listApps) ∧
    (∀ (cmd : String) (rest : List String),
      cmd ≠ "list" → cmd ≠ "install-all" → cmd ≠ "install" → cmd ≠ "shortcuts" →
      main_dispatch (cmd :: rest) = (1, MainAction.unknown cmd)) := by
  have huk : ∀ (cmd : String) (rest : List String),
      cmd ≠ "list" → cmd ≠ "install-all" → cmd ≠ "install" → cmd ≠ "shortcuts" →
      main_dispatch (cmd :: rest) = (1, MainAction.unknown cmd) := by
    intro cmd rest h1 h2 h3 h4
    rcases rest with _ | ⟨c, rest2⟩ <;> simp [main_dispatch, h1, h2, h3, h4]
  refine ⟨?_, ?_, rfl, huk⟩ <;>
  · rcases args with _ | ⟨cmd, rest⟩
    · simp [main_dispatch]
    · rcases rest with _ | ⟨c, rest2⟩ <;>
        by_cases h1 : cmd = "list" <;>
          by_cases h2 : cmd = "install-all" <;>
            by_cases h3 : cmd = "install" <;>
              by_cases h4 : cmd = "shortcuts" <;>
                simp [main_dispatch, h1, h2, h3, h4]

/-- Witness for C8 (amended) at a concrete unrecognized command. -/
theorem dispatcher_exit_codes_witness :
    main_dispatch ["bogus"] = (1, MainAction.unknown "bogus") :=
  (dispatcher_exit_codes ["bogus"]).2.2.2 "bogus" []
    (by decide) (by decide) (by decide) (by decide)

/-- The result of reading and parsing the catalog file content. -/
def parse_result : CatalogFileContent → Catalog
  | .valid c => c
  | .corrupt _ => default_config

/-- Every load leaves the catalog file present with some content `x`, and
returns the catalog that `x` parses to (the defaults when `x` is corrupt). -/
theorem load_spec (fs : FSState) :
    ∃ x, load_apps_config fs = (parse_result x, { fs with catalogFile := some x }) := by
  rcases fs with ⟨cf, tc, sc⟩
  rcases cf with _ | cv
  · exact ⟨.valid default_config, rfl⟩
  · rcases cv with c | raw
    · exact ⟨.valid c, rfl⟩
    · exact ⟨.corrupt raw, rfl⟩

/-- Loading from a state whose catalog file is already present is read-only
and deterministic in that content. -/
theorem load_stable (st : FSState) (x : CatalogFileContent)
    (h : st.catalogFile = some x) :
    load_apps_config st = (parse_result x, { st with catalogFile := some x }) := by
  rcases st with ⟨cf, tc, sc⟩
  simp only at h
  subst h
  rcases x with c | raw <;> rfl

/-- One shortcut file write of `create_app_shortcut` (lines 314-319). -/
def write_shortcut (fs : FSState) (e : AppEntry) : FSState :=
  { fs with shortcuts := (shortcut_path e, shortcut_content e) :: fs.shortcuts }

/-- `create_app_shortcuts` (lines 281-290): load the catalog and write one
shortcut file for every entry of every category, in catalog order. -/
def create_app_shortcuts (fs : FSState) : FSState :=
  let p := load_apps_config fs
  p.1.foldl (fun s pr => pr.2.foldl write_shortcut s) p.2

/-- The shortcut writes a catalog produces, in iteration order. -/
def shortcut_writes (c : Catalog) : List (String × String) :=
  (c.map (fun pr => pr.2.map (fun e => (shortcut_path e, shortcut_content e)))).flatten

/-- The tablet-config writes a whole catalog produces under the failure
oracle `wf`, in iteration order. -/
def all_config_writes (wf : String → Bool) (c : Catalog) :
    List (String × TabletConfig) :=
  (c.map (fun pr => config_writes_of wf pr.2)).flatten

/-- The `install-all` command of `main` (lines 341-343): install everything,
then regenerate all shortcuts. -/
def run_install_all_cmd (wf : String → Bool) (fs : FSState) : FSState :=
  create_app_shortcuts (install_all_apps wf fs).2

/-- The `install <category>` command of `main` (lines 344-347): install one
category, then regenerate all shortcuts. -/
def run_install_cat_cmd (wf : String → Bool) (category : String)
    (fs : FSState) : FSState :=
  create_app_shortcuts (install_category wf category fs).2

/-- Folding the shortcut writer over an app list prepends that list of
writes (newest first). -/
theorem foldl_write_shortcut (apps : List AppEntry) (fs : FSState) :
    apps.foldl write_shortcut fs =
      { fs with shortcuts :=
          (apps.map (fun e => (shortcut_path e, shortcut_content e))).reverse
            ++ fs.shortcuts } := by
  induction apps generalizing fs with
  | nil => simp
  | cons a as ih =>
      rw [List.foldl_cons, ih]
      simp [write_shortcut]

/-- Folding the shortcut writer over a whole catalog prepends all its
shortcut writes. -/
theorem foldl_catalog_shortcuts (c : Catalog) (fs : FSState) :
    c.foldl (fun s pr => pr.2.foldl write_shortcut s) fs =
      { fs with shortcuts := (shortcut_writes c).reverse ++ fs.shortcuts } := by
  induction c generalizing fs with
  | nil => simp [shortcut_writes]
  | cons pr rest ih =>
      rw [List.foldl_cons, foldl_write_shortcut, ih]
      simp [shortcut_writes, List.reverse_append]

/-- `create_app_shortcuts`, characterised: load (persisting defaults if
needed), then prepend every shortcut write of the loaded catalog. -/
theorem create_app_shortcuts_eq (fs : FSState) (x : CatalogFileContent)
    (h : load_apps_config fs = (parse_result x, { fs with catalogFile := some x })) :
    create_app_shortcuts fs =
      ⟨some x, fs.tabletConfigs,
       (shortcut_writes (parse_result x)).reverse ++ fs.shortcuts⟩ := by
  unfold create_app_shortcuts
  rw [h, foldl_catalog_shortcuts]

/-- The category fold of `install_all_apps`, characterised on its state
component: it prepends every tablet-config write of the catalog. -/
theorem install_all_fold_state (wf : String → Bool) (c : Catalog)
    (acc : Nat × Nat × FSState) :
    (c.foldl
        (fun acc pr =>
          let s := install_apps_list wf pr.2 acc.2.2
          (acc.1 + pr.2.length, (acc.2.1 + s.1, s.2)))
        acc).2.2 =
      { acc.2.2 with tabletConfigs :=
          (all_config_writes wf c).reverse ++ acc.2.2.tabletConfigs } := by
  induction c generalizing acc with
  | nil => simp [all_config_writes]
  | cons pr rest ih =>
      rw [List.foldl_cons]
      rw [ih]
      simp [install_apps_list, install_loop_eq, all_config_writes,
        List.reverse_append]

/-- `install_all_apps`, characterised on its state component. -/
theorem install_all_apps_state (wf : String → Bool) (fs : FSState)
    (x : CatalogFileContent)
    (h : load_apps_config fs = (parse_result x, { fs with catalogFile := some x })) :
    (install_all_apps wf fs).2 =
      ⟨some x,
       (all_config_writes wf (parse_result x)).reverse ++ fs.tabletConfigs,
       fs.shortcuts⟩ := by
  unfold install_all_apps
  rw [h]
  rw [install_all_fold_state]

/-- The tablet-config writes of one `install_category` run: those of the
looked-up category, or none when the category is unknown. -/
def category_config_writes (wf : String → Bool) (category : String)
    (c : Catalog) : List (String × TabletConfig) :=
  match c.lookup category with
  | some apps => config_writes_of wf apps
  | none => []

/-- `install_category`, characterised on its state component. -/
theorem install_category_state (wf : String → Bool) (category : String)
    (fs : FSState) (x : CatalogFileContent)
    (h : load_apps_config fs = (parse_result x, { fs with catalogFile := some x })) :
    (install_category wf category fs).2 =
      ⟨some x,
       (category_config_writes wf category (parse_result x)).reverse
         ++ fs.tabletConfigs,
       fs.shortcuts⟩ := by
  unfold install_category
  rw [h]
  unfold category_config_writes
  cases hl : (parse_result x).lookup category with
  | none => simp [hl]
  | some apps => simp [hl, install_apps_list, install_loop_eq]

/-- Writing the same batch of files twice leaves every path with the same
observable content as writing it once. -/
theorem lookupLog_overwrite {β : Type} (w l : List (String × β)) (p : String) :
    lookupLog (w ++ (w ++ l)) p = lookupLog (w ++ l) p := by
  unfold lookupLog
  rw [List.find?_append, List.find?_append]
  cases h : w.find? (fun q => q.1 == p) <;> simp [h]

/-- C9: re-running the `shortcuts`, `install-all`, or `install <category>`
command on an unchanged catalog rewrites exactly the files of the first run
with identical content: the observable content of every path is unchanged. -/
theorem install_and_shortcuts_idempotent (wf : String → Bool)
    (category : String) (fs : FSState) (p : String) :
    (lookupLog (create_app_shortcuts (create_app_shortcuts fs)).shortcuts p
        = lookupLog (create_app_shortcuts fs).shortcuts p ∧
     (create_app_shortcuts (create_app_shortcuts fs)).tabletConfigs
        = (create_app_shortcuts fs).tabletConfigs) ∧
    (lookupLog (run_install_all_cmd wf (run_install_all_cmd wf fs)).tabletConfigs p
        = lookupLog (run_install_all_cmd wf fs).tabletConfigs p ∧
     lookupLog (run_install_all_cmd wf (run_install_all_cmd wf fs)).shortcuts p
        = lookupLog (run_install_all_cmd wf fs).shortcuts p) ∧
    (lookupLog
        (run_install_cat_cmd wf category (run_install_cat_cmd wf category fs)).tabletConfigs p
        = lookupLog (run_install_cat_cmd wf category fs).tabletConfigs p ∧
     lookupLog
        (run_install_cat_cmd wf category (run_install_cat_cmd wf category fs)).shortcuts p
        = lookupLog (run_install_cat_cmd wf category fs).shortcuts p) := by
  obtain ⟨x, hx⟩ := load_spec fs
  refine ⟨?_, ?_, ?_⟩
  · have h1 := create_app_shortcuts_eq fs x hx
    have hcf : (create_app_shortcuts fs).catalogFile = some x := by rw [h1]
    have h2 := create_app_shortcuts_eq (create_app_shortcuts fs) x
      (load_stable _ x hcf)
    rw [h2, h1]
    exact ⟨lookupLog_overwrite _ _ p, rfl⟩
  · have hA1 := install_all_apps_state wf fs x hx
    have hR1 : run_install_all_cmd wf fs =
        ⟨some x,
         (all_config_writes wf (parse_result x)).reverse ++ fs.tabletConfigs,
         (shortcut_writes (parse_result x)).reverse ++ fs.shortcuts⟩ := by
      unfold run_install_all_cmd
      rw [create_app_shortcuts_eq _ x (load_stable _ x (by rw [hA1])), hA1]
    have hA2 := install_all_apps_state wf (run_install_all_cmd wf fs) x
      (load_stable _ x (by rw [hR1]))
    have hR2 : run_install_all_cmd wf (run_install_all_cmd wf fs) =
        ⟨some x,
         (all_config_writes wf (parse_result x)).reverse
           ++ (run_install_all_cmd wf fs).tabletConfigs,
         (shortcut_writes (parse_result x)).reverse
           ++ (run_install_all_cmd wf fs).shortcuts⟩ := by
      conv_lhs => rw [run_install_all_cmd]
      rw [create_app_shortcuts_eq _ x (load_stable _ x (by rw [hA2])), hA2]
    rw [hR2]
    conv_rhs => rw [hR1]
    rw [hR1]
    exact ⟨lookupLog_overwrite _ _ p, lookupLog_overwrite _ _ p⟩
  · have hC1 := install_category_state wf category fs x hx
    have hR1 : run_install_cat_cmd wf category fs =
        ⟨some x,
         (category_config_writes wf category (parse_result x)).reverse
           ++ fs.tabletConfigs,
         (shortcut_writes (parse_result x)).reverse ++ fs.shortcuts⟩ := by
      unfold run_install_cat_cmd
      rw [create_app_shortcuts_eq _ x (load_stable _ x (by rw [hC1])), hC1]
    have hC2 := install_category_state wf category
      (run_install_cat_cmd wf category fs) x (load_stable _ x (by rw [hR1]))
    have hR2 : run_install_cat_cmd wf category (run_install_cat_cmd wf category fs) =
        ⟨some x,
         (category_config_writes wf category (parse_result x)).reverse
           ++ (run_install_cat_cmd wf category fs).tabletConfigs,
         (shortcut_writes (parse_result x)).reverse
           ++ (run_install_cat_cmd wf category fs).shortcuts⟩ := by
      conv_lhs => rw [run_install_cat_cmd]
      rw [create_app_shortcuts_eq _ x (load_stable _ x (by rw [hC2])), hC2]
    rw [hR2]
    conv_rhs => rw [hR1]
    rw [hR1]
    exact ⟨lookupLog_overwrite _ _ p, lookupLog_overwrite _ _ p⟩

end TabletApps
